import Mathlib

/-!
Shallow embedding of the dnscache package (vicanso/dnscache).  The defining
source is the current dns_cache.go (src/unnamed/part_006); every definition
below names the Go function or type it translates.  Machine time is modelled
as natural-number nanoseconds with 0 standing for Go's zero time.Time, so
that time.Time.IsZero becomes equality with 0, t.Add(d) becomes t + d and
a.After(b) becomes b < a.  External capabilities (the injected resolver,
net.ParseIP, the dialer, the rand source, the atomic counter cell) are passed
to the operations as explicit arguments, and the observable effects of one
call (storage contents, counter value, whether the resolver was invoked and
whether a background-refresh goroutine was spawned) are returned in explicit
outcome structures.
-/

namespace Dnscache

/-- Bytes of a net.IP value: length 4 is an IPv4 address, length 16 an
IPv6-form address. -/
abbrev IPAddr := List Nat

/-- Go error values observable from the package.  notFound embeds the
package's ErrNotFound; errMsg stands for any other error value, such as one
produced by the injected resolver.  resolutionFailed is the
wrapped-with-host-context error shape that the specification describes for
resolver failures; the source never constructs such a value, and the
constructor exists only so that statements can compare the code's behaviour
with the spec's words. -/
inductive GoErr where
  | notFound : GoErr
  | errMsg (msg : String) : GoErr
  | resolutionFailed (host : String) (inner : GoErr) : GoErr
deriving Repr, DecidableEq

/-- Discriminator for the spec's ResolutionFailed error kind. -/
def GoErr.isResolutionFailed : GoErr → Bool
  | .resolutionFailed _ _ => true
  | _ => false

/-- IPCache: the per-host cache entry (IPAddrs, CreatedAt). -/
structure IPCache where
  IPAddrs : List IPAddr
  CreatedAt : Nat
deriving Repr, DecidableEq

def PolicyFirst : Nat := 0
def PolicyRandom : Nat := 1
def PolicyRoundRobin : Nat := 2

def NetworkIP : Nat := 0
def NetworkIPV4 : Nat := 1
def NetworkIPV6 : Nat := 2

/-- DNSCache configuration.  The index counter cell, the Storage contents and
the injected Resolver, Dialer and OnStats capabilities are passed explicitly
to the operations that use them. -/
structure DNSCache where
  TTL : Nat
  Stale : Nat
  Policy : Nat
  Network : Nat
  Timeout : Nat
deriving Repr, DecidableEq

/-- Contents of the default mapStorage (a sync.Map from host to *IPCache). -/
abbrev Store := String → Option IPCache

/-- The injected resolver capability, net.Resolver.LookupIP: a network
("ip", "ip4" or "ip6") and a host give either an address list or an error.
Deadlines belong to the capability and are not modelled. -/
abbrev Resolver := String → String → Except GoErr (List IPAddr)

/-- mapStorage.Set: stores the entry, ignoring the ttl hint. -/
def mapStorageSet (m : Store) (host : String) (ipCache : IPCache) (_ttl : Nat) : Store :=
  fun h => if h = host then some ipCache else m h

/-- mapStorage.Get: the stored entry plus nil error, or the zero IPCache plus
ErrNotFound, mirroring Go's two-valued return. -/
def mapStorageGet (m : Store) (host : String) : IPCache × Option GoErr :=
  match m host with
  | none => (⟨[], 0⟩, some .notFound)
  | some c => (c, none)

/-- mapStorage.Delete. -/
def mapStorageDelete (m : Store) (host : String) : Store :=
  fun h => if h = host then none else m h

/-- DNSCache.Set: delegates to the storage with ttl hint TTL+Stale. -/
def DNSCache.Set (dc : DNSCache) (m : Store) (host : String) (ipCache : IPCache) : Store :=
  mapStorageSet m host ipCache (dc.TTL + dc.Stale)

/-- DNSCache.Get: delegates to the storage. -/
def DNSCache.Get (_dc : DNSCache) (m : Store) (host : String) : IPCache × Option GoErr :=
  mapStorageGet m host

/-- DNSCache.Delete: delegates to the storage. -/
def DNSCache.Delete (_dc : DNSCache) (m : Store) (host : String) : Store :=
  mapStorageDelete m host

/-- The network string handed to the resolver (the switch on dc.Network in
lookup). -/
def networkStr (dc : DNSCache) : String :=
  if dc.Network = NetworkIPV4 then "ip4"
  else if dc.Network = NetworkIPV6 then "ip6"
  else "ip"

/-- lookup (lower case, private): calls the resolver; a resolver error is
returned unchanged, an empty result becomes ErrNotFound.  The bounded
timeout wrapped around the call belongs to the resolver capability. -/
def lookup (dc : DNSCache) (resolver : Resolver) (host : String) :
    Except GoErr (List IPAddr) :=
  match resolver (networkStr dc) host with
  | .error e => .error e
  | .ok result => if result.length = 0 then .error .notFound else .ok result

/-- Lookup (public): returns exactly what lookup returns; on success the
source additionally notifies the OnStats observer with the stringified
addresses, which does not influence the returned value. -/
def Lookup (dc : DNSCache) (resolver : Resolver) (host : String) :
    Except GoErr (List IPAddr) :=
  lookup dc resolver host

/-- Observable outcome of one LookupWithCache / lookupAndUpdate call: the
returned value, the storage contents after the synchronous part of the call,
whether the resolver was invoked synchronously, and whether a detached
background-refresh goroutine was spawned. -/
structure LookupOut where
  result : Except GoErr (List IPAddr)
  storeAfter : Store
  resolverCalled : Bool
  refreshTriggered : Bool

/-- lookupAndUpdate: a synchronous Lookup followed by Set with CreatedAt set
to the current time.  The two time.Now() readings inside one call are
modelled as the same instant, and mapStorage.Set never fails, so the Set
error branch of the source is not reachable here. -/
def lookupAndUpdate (dc : DNSCache) (resolver : Resolver) (store : Store) (now : Nat)
    (host : String) : LookupOut :=
  match Lookup dc resolver host with
  | .error e => ⟨.error e, store, true, false⟩
  | .ok ipAddrs => ⟨.ok ipAddrs, dc.Set store host ⟨ipAddrs, now⟩, true, false⟩

/-- LookupWithCache: serve a non-empty stored entry while it is permanently
valid (zero CreatedAt) or fresh; serve a stale-but-usable entry while
spawning a detached refresh goroutine; otherwise fall through to a
synchronous lookupAndUpdate.  The error of dc.Get is discarded exactly as in
the source (ipCache, _ := dc.Get(ctx, host)). -/
def LookupWithCache (dc : DNSCache) (resolver : Resolver) (store : Store) (now : Nat)
    (host : String) : LookupOut :=
  let ipCache := (dc.Get store host).1
  if ipCache.IPAddrs.length ≠ 0 then
    let ipAddrs := ipCache.IPAddrs
    let createdAt := ipCache.CreatedAt
    if createdAt = 0 ∨ now < createdAt + dc.TTL then
      ⟨.ok ipAddrs, store, false, false⟩
    else if dc.Stale ≠ 0 ∧ now < createdAt + dc.TTL + dc.Stale then
      ⟨.ok ipAddrs, store, false, true⟩
    else lookupAndUpdate dc resolver store now host
  else lookupAndUpdate dc resolver store now host

/-- net.IP.To4 (Go standard library): the 4-byte form of an IPv4 or
IPv4-in-IPv6 address, none otherwise. -/
def to4 (ip : IPAddr) : Option IPAddr :=
  if ip.length = 4 then some ip
  else if ip.length = 16 ∧ ip.take 12 = [0, 0, 0, 0, 0, 0, 0, 0, 0, 0, 255, 255] then
    some (ip.drop 12)
  else none

/-- filterIPByLen: keeps the addresses of the requested byte length; when the
requested length is net.IPv4len an IPv4-in-IPv6 address is kept in its 4-byte
To4 form; length 0 means no filtering. -/
def filterIPByLen (ipAddrs : List IPAddr) (length : Nat) : List IPAddr :=
  if length = 0 then ipAddrs
  else
    ipAddrs.filterMap fun item =>
      if item.length = length then some item
      else if length ≠ 4 then none
      else to4 item

/-- Lowercase hexadecimal digit character. -/
def hexDigit (n : Nat) : Char :=
  if n < 10 then Char.ofNat (48 + n) else Char.ofNat (87 + n)

/-- One 16-bit group in lowercase hex without leading zeros (net's
appendHex). -/
def hexGroup (n : Nat) : String :=
  if n = 0 then "0"
  else String.mk (([n / 4096 % 16, n / 256 % 16, n / 16 % 16, n % 16].dropWhile
    (· = 0)).map hexDigit)

/-- Two hex digits of one byte (net's hexString helper). -/
def hexByte (b : Nat) : String :=
  String.mk [hexDigit (b / 16 % 16), hexDigit (b % 16)]

/-- Hex dump of all bytes (net's hexString). -/
def hexAll (ip : IPAddr) : String :=
  String.join (ip.map hexByte)

/-- Dotted-decimal text of a 4-byte address. -/
def dottedQuad (bs : IPAddr) : String :=
  String.intercalate "." (bs.map toString)

/-- The 16-bit groups of a 16-byte address. -/
def toGroups : IPAddr → List Nat
  | hi :: lo :: rest => (hi * 256 + lo) :: toGroups rest
  | _ => []

/-- Length of the run of zero groups starting at position i. -/
def runLenAt (gs : List Nat) (i : Nat) : Nat :=
  ((gs.drop i).takeWhile (· = 0)).length

/-- Does a maximal run of zero groups start at position i? -/
def isRunStart (gs : List Nat) (i : Nat) : Bool :=
  (gs.getD i 1 == 0) && (i == 0 || gs.getD (i - 1) 1 != 0)

/-- The leftmost longest run of at least two zero groups (the e0/e1 search of
net.IP.String): its start and length, or none. -/
def bestRun (gs : List Nat) : Option (Nat × Nat) :=
  (List.range gs.length).foldl
    (fun best i =>
      if isRunStart gs i then
        let len := runLenAt gs i
        match best with
        | none => if 2 ≤ len then some (i, len) else none
        | some (s, bl) => if bl < len then some (i, len) else some (s, bl)
      else best)
    none

/-- Text of eight 16-bit groups with the best zero run compressed to
a double colon (the IPv6 arm of net.IP.String). -/
def ipv6Str (gs : List Nat) : String :=
  match bestRun gs with
  | none => String.intercalate ":" (gs.map hexGroup)
  | some (s, l) =>
      String.intercalate ":" ((gs.take s).map hexGroup) ++ "::" ++
        String.intercalate ":" ((gs.drop (s + l)).map hexGroup)

/-- net.IP.String (Go standard library). -/
def ipString (ip : IPAddr) : String :=
  if ip.length = 0 then "<nil>"
  else
    match to4 ip with
    | some p4 => dottedQuad p4
    | none => if ip.length ≠ 16 then "?" ++ hexAll ip else ipv6Str (toGroups ip)

/-- Two's-complement wrap of an int32, the overflow behaviour of
atomic.AddInt32. -/
def wrap32 (n : Int) : Int :=
  (n + 2147483648) % 4294967296 - 2147483648

/-- Go slice indexing ipAddrs[index] followed by ip.String(): the stringified
element when the index is in bounds, none for the out-of-range panic. -/
def pickAt (ipAddrs : List IPAddr) (index : Int) : Option String :=
  if 0 ≤ index then
    match ipAddrs.get? index.toNat with
    | some ip => some (ipString ip)
    | none => none
  else none

/-- pick: address selection.  counter is the value of the instance-shared
dc.index cell before the call and the first component of the result its value
after the call; randVal is the value the freshly seeded rand source would
produce (always non-negative in Go).  Go's % is the truncated-division
remainder, Int.tmod.  A none second component is the index-out-of-range
panic of ipAddrs[index]. -/
def pick (dc : DNSCache) (counter : Int) (randVal : Nat) (ipAddrs : List IPAddr) :
    Int × Option String :=
  if dc.Policy = PolicyRoundRobin then
    let value := wrap32 (counter + 1)
    (value, pickAt ipAddrs (Int.tmod value ipAddrs.length))
  else if dc.Policy = PolicyRandom then
    (counter, pickAt ipAddrs (Int.tmod (randVal : Int) ipAddrs.length))
  else (counter, pickAt ipAddrs 0)

/-- Result of getIP: the chosen address text, an error, or a runtime panic. -/
inductive StrResult where
  | ok (s : String) : StrResult
  | err (e : GoErr) : StrResult
  | panicked : StrResult
deriving Repr, DecidableEq

/-- Observable outcome of one getIP call. -/
structure GetIPOut where
  result : StrResult
  storeAfter : Store
  counterAfter : Int
  resolverCalled : Bool
  refreshTriggered : Bool

/-- The byte length requested for a transport (the switch on network in
getIP): 4 for tcp4/udp4, 16 for tcp6/udp6, otherwise 0. -/
def ipLenFor (network : String) : Nat :=
  if network = "tcp4" ∨ network = "udp4" then 4
  else if network = "tcp6" ∨ network = "udp6" then 16
  else 0

/-- Strip one pair of enclosing square brackets from a bracketed IPv6 host
(strings.HasPrefix(host, "[") and strings.HasSuffix(host, "]") phrased on the
character list, since the affixes are single characters). -/
def stripBrackets (s : String) : String :=
  if s.data.head? == some '[' && s.data.getLast? == some ']' then
    (s.drop 1).dropRight 1
  else s

/-- getIP: parseIPOk host models len(net.ParseIP(host)) != 0, that is, the
host is already a literal address (net.ParseIP is Go standard library and is
passed in as an oracle). -/
def getIP (dc : DNSCache) (parseIPOk : String → Bool) (resolver : Resolver)
    (store : Store) (counter : Int) (randVal : Nat) (now : Nat)
    (network host : String) : GetIPOut :=
  let host := stripBrackets host
  if parseIPOk host then ⟨.ok host, store, counter, false, false⟩
  else
    let out := LookupWithCache dc resolver store now host
    match out.result with
    | .error e => ⟨.err e, out.storeAfter, counter, out.resolverCalled, out.refreshTriggered⟩
    | .ok ipAddrs =>
      let ipLength := ipLenFor network
      let ipAddrs := if ipLength ≠ 0 then filterIPByLen ipAddrs ipLength else ipAddrs
      if ipAddrs.length = 0 then
        ⟨.err .notFound, out.storeAfter, counter, out.resolverCalled, out.refreshTriggered⟩
      else
        match pick dc counter randVal ipAddrs with
        | (c', some s) => ⟨.ok s, out.storeAfter, c', out.resolverCalled, out.refreshTriggered⟩
        | (c', none) => ⟨.panicked, out.storeAfter, c', out.resolverCalled, out.refreshTriggered⟩

/-- strings.LastIndex(addr, ":") on the character list: the position of the
last colon, none standing for Go's -1. -/
def lastColonIdxAux : List Char → Option Nat
  | [] => none
  | c :: rest =>
    match lastColonIdxAux rest with
    | some i => some (i + 1)
    | none => if c = ':' then some 0 else none

/-- strings.LastIndex(addr, ":"). -/
def lastColonIdx (s : String) : Option Nat :=
  lastColonIdxAux s.data

/-- Re-bracket an IPv6 literal (strings.Contains(ip, ":") in the dial
closure, phrased on the character list). -/
def bracketIPv6 (ip : String) : String :=
  if ip.data.contains ':' then "[" ++ ip ++ "]" else ip

/-- What the connect closure does with its target: hand an address to the
dialer, return an error, or panic. -/
inductive ConnectResult where
  | dialed (addr : String) : ConnectResult
  | failed (e : GoErr) : ConnectResult
  | panicked : ConnectResult
deriving Repr, DecidableEq

/-- Observable outcome of one call of the connect closure. -/
structure ConnectOut where
  result : ConnectResult
  storeAfter : Store
  counterAfter : Int
  resolverCalled : Bool
  refreshTriggered : Bool

/-- The connect closure returned by GetDialContext, applied to one (network,
addr) pair; retry is the retryDialIfCacheFail flag.  dialed a records the
target handed to dialer.DialContext.  When addr holds no colon,
strings.LastIndex gives -1 and the slice addr[:sepIndex] panics. -/
def GetDialContext (dc : DNSCache) (parseIPOk : String → Bool) (resolver : Resolver)
    (retry : Bool) (store : Store) (counter : Int) (randVal : Nat) (now : Nat)
    (network addr : String) : ConnectOut :=
  match lastColonIdx addr with
  | none => ⟨.panicked, store, counter, false, false⟩
  | some sepIndex =>
    let host := addr.take sepIndex
    let g := getIP dc parseIPOk resolver store counter randVal now network host
    match g.result with
    | .err e =>
      if retry then ⟨.dialed addr, g.storeAfter, g.counterAfter, g.resolverCalled, g.refreshTriggered⟩
      else ⟨.failed e, g.storeAfter, g.counterAfter, g.resolverCalled, g.refreshTriggered⟩
    | .panicked => ⟨.panicked, g.storeAfter, g.counterAfter, g.resolverCalled, g.refreshTriggered⟩
    | .ok ip =>
      ⟨.dialed (bracketIPv6 ip ++ addr.drop sepIndex), g.storeAfter, g.counterAfter,
        g.resolverCalled, g.refreshTriggered⟩

/-- Decidable equality of Except values, needed so that concrete runs of the
operations can be checked by evaluation. -/
def exceptDecEq {ε α : Type} [DecidableEq ε] [DecidableEq α] :
    DecidableEq (Except ε α)
  | .ok x, .ok y =>
    if h : x = y then .isTrue (by rw [h])
    else .isFalse (fun k => h (Except.ok.inj k))
  | .error x, .error y =>
    if h : x = y then .isTrue (by rw [h])
    else .isFalse (fun k => h (Except.error.inj k))
  | .ok _, .error _ => .isFalse (fun k => Except.noConfusion k)
  | .error _, .ok _ => .isFalse (fun k => Except.noConfusion k)

instance {ε α : Type} [DecidableEq ε] [DecidableEq α] : DecidableEq (Except ε α) :=
  exceptDecEq

/-- Sample configuration shared by the concrete witness runs: TTL 10, Stale 5,
policy First, network unrestricted. -/
def dcW : DNSCache := ⟨10, 5, PolicyFirst, NetworkIP, 0⟩

/-- Sample stored entry: one IPv4 address, created at instant 100. -/
def entryW : IPCache := ⟨[[1, 2, 3, 4]], 100⟩

/-- Sample storage holding entryW under "example.com". -/
def storeW : Store := fun h => if h = "example.com" then some entryW else none

/-- Empty sample storage. -/
def storeEmpty : Store := fun _ => none

/-- Sample resolver capability that always fails. -/
def resolverBoom : Resolver := fun _ _ => .error (.errMsg "boom")

/-- Sample resolver capability resolving everything to 9.9.9.9. -/
def resolverNine : Resolver := fun _ _ => .ok [[9, 9, 9, 9]]

/-- Sample resolver returning one IPv4 and one IPv6 address. -/
def resolverMixed : Resolver :=
  fun _ _ => .ok [[9, 9, 9, 9], [32, 1, 13, 184, 0, 0, 0, 0, 0, 0, 0, 0, 0, 0, 0, 1]]

/-- Oracle for net.ParseIP used by the concrete runs: exactly the literals
appearing in them parse (net.ParseIP accepts "::1" and dotted quads and
rejects hostnames). -/
def parseIPLit (s : String) : Bool :=
  s == "::1" || s == "1.2.3.4" || s == "9.9.9.9"

/-- C1: for a host whose stored entry has a non-empty address list, a
non-sentinel creation time, and an age inside the stale window
(ttl <= now - createdAt < ttl + stale, stale non-zero), LookupWithCache
returns the old cached addresses without a synchronous resolver call, spawns
the background refresh, and leaves storage untouched in this call; because
the result does not depend on the quantified resolver, no error of the
triggered refresh can reach this caller. -/
theorem C1_stale_hit (dc : DNSCache) (resolver : Resolver) (store : Store)
    (now : Nat) (host : String) (c : IPCache)
    (hget : store host = some c) (hne : c.IPAddrs ≠ [])
    (hcz : c.CreatedAt ≠ 0) (hstale : dc.Stale ≠ 0)
    (h1 : c.CreatedAt + dc.TTL ≤ now) (h2 : now < c.CreatedAt + dc.TTL + dc.Stale) :
    (LookupWithCache dc resolver store now host).result = .ok c.IPAddrs ∧
    (LookupWithCache dc resolver store now host).resolverCalled = false ∧
    (LookupWithCache dc resolver store now host).refreshTriggered = true ∧
    (LookupWithCache dc resolver store now host).storeAfter = store := by
  have hv : (dc.Get store host).1 = c := by
    simp [DNSCache.Get, mapStorageGet, hget]
  have hlen : c.IPAddrs.length ≠ 0 := by
    simpa [List.length_eq_zero] using hne
  have h1' : ¬ now < c.CreatedAt + dc.TTL := Nat.not_lt.mpr h1
  simp [LookupWithCache, hv, hlen, hcz, h1', hstale, h2]

/-- C1 witness: a concrete stale hit (createdAt 100, TTL 10, Stale 5,
now 112) with a resolver that always errors; the cached addresses are still
returned and no refresh error surfaces. -/
theorem C1_witness :
    storeW "example.com" = some entryW ∧ entryW.IPAddrs ≠ [] ∧
    entryW.CreatedAt ≠ 0 ∧ dcW.Stale ≠ 0 ∧
    entryW.CreatedAt + dcW.TTL ≤ 112 ∧ 112 < entryW.CreatedAt + dcW.TTL + dcW.Stale ∧
    (LookupWithCache dcW resolverBoom storeW 112 "example.com").result = .ok [[1, 2, 3, 4]] ∧
    (LookupWithCache dcW resolverBoom storeW 112 "example.com").resolverCalled = false ∧
    (LookupWithCache dcW resolverBoom storeW 112 "example.com").refreshTriggered = true := by
  have h := C1_stale_hit dcW resolverBoom storeW 112 "example.com" entryW
    (by decide) (by decide) (by decide) (by decide) (by decide) (by decide)
  exact ⟨by decide, by decide, by decide, by decide, by decide, by decide,
    h.1, h.2.1, h.2.2.1⟩

/-- C2: a stored entry with a non-empty address list that is permanently
valid (zero CreatedAt sentinel) or fresh (now < createdAt + ttl) is served
exactly as cached, with no synchronous resolver call, no background refresh,
and unchanged storage. -/
theorem C2_fresh_hit (dc : DNSCache) (resolver : Resolver) (store : Store)
    (now : Nat) (host : String) (c : IPCache)
    (hget : store host = some c) (hne : c.IPAddrs ≠ [])
    (hfresh : c.CreatedAt = 0 ∨ now < c.CreatedAt + dc.TTL) :
    (LookupWithCache dc resolver store now host).result = .ok c.IPAddrs ∧
    (LookupWithCache dc resolver store now host).resolverCalled = false ∧
    (LookupWithCache dc resolver store now host).refreshTriggered = false ∧
    (LookupWithCache dc resolver store now host).storeAfter = store := by
  have hv : (dc.Get store host).1 = c := by
    simp [DNSCache.Get, mapStorageGet, hget]
  have hlen : c.IPAddrs.length ≠ 0 := by
    simpa [List.length_eq_zero] using hne
  simp [LookupWithCache, hv, hlen, hfresh]

/-- C2 witness: a concrete fresh hit (createdAt 100, TTL 10, now 105) with an
always-failing resolver, which is therefore never consulted. -/
theorem C2_witness :
    storeW "example.com" = some entryW ∧ entryW.IPAddrs ≠ [] ∧
    (entryW.CreatedAt = 0 ∨ 105 < entryW.CreatedAt + dcW.TTL) ∧
    (LookupWithCache dcW resolverBoom storeW 105 "example.com").result = .ok [[1, 2, 3, 4]] ∧
    (LookupWithCache dcW resolverBoom storeW 105 "example.com").resolverCalled = false ∧
    (LookupWithCache dcW resolverBoom storeW 105 "example.com").refreshTriggered = false := by
  have h := C2_fresh_hit dcW resolverBoom storeW 105 "example.com" entryW
    (by decide) (by decide) (by decide)
  exact ⟨by decide, by decide, by decide, h.1, h.2.1, h.2.2.1⟩

/-- C9: on the default in-memory storage, get after set with no intervening
write returns exactly the stored entry (and a nil error), for every prior
storage content, host and entry; DNSCache.Set is the Set of the source, whose
ttl hint mapStorage ignores. -/
theorem C9_roundtrip (dc : DNSCache) (m : Store) (host : String) (e : IPCache) :
    mapStorageGet (dc.Set m host e) host = (e, none) := by
  simp [DNSCache.Set, mapStorageSet, mapStorageGet]

/-- Helper: a successful Lookup result is exactly a non-empty resolver
result. -/
theorem Lookup_ok_nonempty {dc : DNSCache} {resolver : Resolver} {host : String}
    {l : List IPAddr} (h : Lookup dc resolver host = .ok l) : l ≠ [] := by
  unfold Lookup lookup at h
  cases hr : resolver (networkStr dc) host with
  | error e => rw [hr] at h; exact absurd h (by simp)
  | ok r =>
    rw [hr] at h
    by_cases hl : r.length = 0
    · simp [hl] at h
    · simp only [hl, if_false, ite_false] at h
      have hrl : r = l := Except.ok.inj h
      subst hrl
      intro hnil
      exact hl (by rw [hnil]; rfl)

/-- Helper: a successful lookupAndUpdate carries a successful Lookup. -/
theorem lookupAndUpdate_ok {dc : DNSCache} {resolver : Resolver} {store : Store}
    {now : Nat} {host : String} {l : List IPAddr}
    (h : (lookupAndUpdate dc resolver store now host).result = .ok l) :
    Lookup dc resolver host = .ok l := by
  unfold lookupAndUpdate at h
  cases hr : Lookup dc resolver host with
  | error e => rw [hr] at h; exact absurd h (by simp)
  | ok r => rw [hr] at h; simpa using h

/-- C3: when the entry read for the host is absent or empty (the zero IPCache
read by the discarded-error Get) or fully expired and not permanently valid,
LookupWithCache resolves synchronously: the resolver is invoked, a resolver
error or an empty resolver answer is propagated as the call's error, and a
non-empty answer is returned as the result and stored under the host with
CreatedAt equal to the current time. -/
theorem C3_sync_resolution (dc : DNSCache) (resolver : Resolver) (store : Store)
    (now : Nat) (host : String)
    (h : ((dc.Get store host).1).IPAddrs = [] ∨
         (((dc.Get store host).1).CreatedAt ≠ 0 ∧
          ((dc.Get store host).1).CreatedAt + dc.TTL ≤ now ∧
          (dc.Stale = 0 ∨ ((dc.Get store host).1).CreatedAt + dc.TTL + dc.Stale ≤ now))) :
    (LookupWithCache dc resolver store now host).resolverCalled = true ∧
    (∀ e, resolver (networkStr dc) host = .error e →
       (LookupWithCache dc resolver store now host).result = .error e) ∧
    (resolver (networkStr dc) host = .ok [] →
       (LookupWithCache dc resolver store now host).result = .error .notFound) ∧
    (∀ l, resolver (networkStr dc) host = .ok l → l ≠ [] →
       (LookupWithCache dc resolver store now host).result = .ok l ∧
       (LookupWithCache dc resolver store now host).storeAfter host = some ⟨l, now⟩) := by
  have key : LookupWithCache dc resolver store now host
      = lookupAndUpdate dc resolver store now host := by
    unfold LookupWithCache
    rcases h with h1 | ⟨hcz, hle, hst⟩
    · simp [h1]
    · have hv' : ¬ (((dc.Get store host).1).CreatedAt = 0 ∨
          now < ((dc.Get store host).1).CreatedAt + dc.TTL) := by
        push_neg
        exact ⟨hcz, hle⟩
      have hs' : ¬ (dc.Stale ≠ 0 ∧
          now < ((dc.Get store host).1).CreatedAt + dc.TTL + dc.Stale) := by
        rcases hst with hz | hl
        · intro k; exact k.1 hz
        · intro k; exact Nat.not_lt.mpr hl k.2
      simp [hv', hs']
  refine ⟨?_, ?_, ?_, ?_⟩
  · rw [key]; unfold lookupAndUpdate
    cases hr : Lookup dc resolver host with
    | error e => simp [hr]
    | ok r => simp [hr]
  · intro e he
    rw [key]; unfold lookupAndUpdate
    simp [Lookup, lookup, he]
  · intro he
    rw [key]; unfold lookupAndUpdate
    simp [Lookup, lookup, he]
  · intro l hl hne
    have hlen : l.length ≠ 0 := by simpa [List.length_eq_zero] using hne
    rw [key]; unfold lookupAndUpdate
    simp [Lookup, lookup, hl, hlen, DNSCache.Set, mapStorageSet]

/-- C3 witness: an empty storage with a resolver answering 9.9.9.9; the call
resolves synchronously, returns the fresh addresses and stores them with
CreatedAt 50. -/
theorem C3_witness :
    ((dcW.Get storeEmpty "fresh.test").1).IPAddrs = [] ∧
    (LookupWithCache dcW resolverNine storeEmpty 50 "fresh.test").resolverCalled = true ∧
    (LookupWithCache dcW resolverNine storeEmpty 50 "fresh.test").result = .ok [[9, 9, 9, 9]] ∧
    (LookupWithCache dcW resolverNine storeEmpty 50 "fresh.test").storeAfter "fresh.test"
      = some ⟨[[9, 9, 9, 9]], 50⟩ := by
  have h := C3_sync_resolution dcW resolverNine storeEmpty 50 "fresh.test" (Or.inl (by decide))
  have h4 := h.2.2.2 [[9, 9, 9, 9]] (by decide) (by decide)
  exact ⟨by decide, h.1, h4.1, h4.2⟩

/-- C4: on every path of LookupWithCache (fresh hit, stale hit, synchronous
resolution) and of Lookup, a successful result is a non-empty address list. -/
theorem C4_success_nonempty (dc : DNSCache) (resolver : Resolver) (store : Store)
    (now : Nat) (host : String) (l : List IPAddr) :
    ((LookupWithCache dc resolver store now host).result = .ok l → l ≠ []) ∧
    (Lookup dc resolver host = .ok l → l ≠ []) := by
  constructor
  · intro hres
    unfold LookupWithCache at hres
    by_cases hlen : ((dc.Get store host).1).IPAddrs.length ≠ 0
    · rw [if_pos hlen] at hres
      by_cases hv : ((dc.Get store host).1).CreatedAt = 0 ∨
          now < ((dc.Get store host).1).CreatedAt + dc.TTL
      · rw [if_pos hv] at hres
        have he : ((dc.Get store host).1).IPAddrs = l := Except.ok.inj hres
        rw [← he]
        intro hnil
        exact hlen (by rw [hnil]; rfl)
      · rw [if_neg hv] at hres
        by_cases hs : dc.Stale ≠ 0 ∧
            now < ((dc.Get store host).1).CreatedAt + dc.TTL + dc.Stale
        · rw [if_pos hs] at hres
          have he : ((dc.Get store host).1).IPAddrs = l := Except.ok.inj hres
          rw [← he]
          intro hnil
          exact hlen (by rw [hnil]; rfl)
        · rw [if_neg hs] at hres
          exact Lookup_ok_nonempty (lookupAndUpdate_ok hres)
    · rw [if_neg hlen] at hres
      exact Lookup_ok_nonempty (lookupAndUpdate_ok hres)
  · exact Lookup_ok_nonempty

/-- C4 witness: a concrete successful cache lookup whose result list is
non-empty. -/
theorem C4_witness :
    (LookupWithCache dcW resolverNine storeEmpty 50 "fresh.test").result = .ok [[9, 9, 9, 9]] ∧
    ([[9, 9, 9, 9]] : List IPAddr) ≠ [] := by
  refine ⟨by decide, ?_⟩
  exact (C4_success_nonempty dcW resolverNine storeEmpty 50 "fresh.test" [[9, 9, 9, 9]]).1
    (by decide)

/-- Helper: a To4 conversion result has 4 bytes. -/
theorem to4_length {ip b : IPAddr} (h : to4 ip = some b) : b.length = 4 := by
  unfold to4 at h
  by_cases h4 : ip.length = 4
  · rw [if_pos h4] at h
    exact (Option.some.inj h) ▸ h4
  · rw [if_neg h4] at h
    by_cases h16 : ip.length = 16 ∧
        ip.take 12 = [0, 0, 0, 0, 0, 0, 0, 0, 0, 0, 255, 255]
    · rw [if_pos h16] at h
      have hb : ip.drop 12 = b := Option.some.inj h
      rw [← hb, List.length_drop, h16.1]
    · rw [if_neg h16] at h
      exact absurd h (by simp)

/-- Helper: with a non-zero requested byte length, every address surviving
filterIPByLen has exactly that length. -/
theorem filterIPByLen_length {k : Nat} (hk : k ≠ 0) (addrs : List IPAddr) :
    ∀ ip ∈ filterIPByLen addrs k, ip.length = k := by
  intro ip hip
  unfold filterIPByLen at hip
  rw [if_neg hk] at hip
  rcases List.mem_filterMap.mp hip with ⟨a, _, hfa⟩
  by_cases h1 : a.length = k
  · rw [if_pos h1] at hfa
    exact (Option.some.inj hfa) ▸ h1
  · rw [if_neg h1] at hfa
    by_cases h2 : k ≠ 4
    · rw [if_pos h2] at hfa
      exact absurd hfa (by simp)
    · rw [if_neg h2] at hfa
      push_neg at h2
      rw [h2]
      exact to4_length hfa

/-- Helper: a successful Go indexing comes from an element of the list. -/
theorem pickAt_mem {l : List IPAddr} {i : Int} {s : String}
    (h : pickAt l i = some s) : ∃ ip ∈ l, s = ipString ip := by
  unfold pickAt at h
  by_cases h0 : 0 ≤ i
  · rw [if_pos h0] at h
    cases hg : l.get? i.toNat with
    | none => rw [hg] at h; exact absurd h (by simp)
    | some ip =>
      rw [hg] at h
      exact ⟨ip, List.get?_mem hg, (Option.some.inj h).symm⟩
  · rw [if_neg h0] at h
    exact absurd h (by simp)

/-- Helper: any address text produced by pick is the text of an element of
the given list. -/
theorem pick_mem {dc : DNSCache} {counter : Int} {randVal : Nat} {l : List IPAddr}
    {c' : Int} {s : String} (h : pick dc counter randVal l = (c', some s)) :
    ∃ ip ∈ l, s = ipString ip := by
  unfold pick at h
  split_ifs at h with h1 h2
  · simp only [Prod.mk.injEq] at h
    exact pickAt_mem h.2
  · simp only [Prod.mk.injEq] at h
    exact pickAt_mem h.2
  · simp only [Prod.mk.injEq] at h
    exact pickAt_mem h.2

/-- C6: for a family-specific transport (tcp4/udp4 request 4-byte addresses,
tcp6/udp6 16-byte ones) the family filter keeps only addresses of the
requested family, getIP fails with ErrNotFound when the filter leaves no
address, and any address text it does pick is the text of a member of the
filtered list, hence of the requested family. -/
theorem C6_family_filter (dc : DNSCache) (parseIPOk : String → Bool)
    (resolver : Resolver) (store : Store) (counter : Int) (randVal : Nat)
    (now : Nat) (network host : String) (addrs : List IPAddr)
    (hnet : ipLenFor network ≠ 0) :
    (∀ ip ∈ filterIPByLen addrs (ipLenFor network), ip.length = ipLenFor network) ∧
    (parseIPOk (stripBrackets host) = false →
      ∀ l, (LookupWithCache dc resolver store now (stripBrackets host)).result = .ok l →
        (filterIPByLen l (ipLenFor network) = [] →
          (getIP dc parseIPOk resolver store counter randVal now network host).result
            = .err .notFound) ∧
        (∀ s, (getIP dc parseIPOk resolver store counter randVal now network host).result
            = .ok s →
          ∃ ip ∈ filterIPByLen l (ipLenFor network), s = ipString ip)) := by
  refine ⟨filterIPByLen_length hnet addrs, ?_⟩
  intro hp l hl
  constructor
  · intro hempty
    simp [getIP, hp, hl, hnet, hempty]
  · intro s hs
    simp only [getIP, hp, hl, hnet, Bool.false_eq_true, if_false, ite_false,
      if_neg, ite_not, ne_eq, not_false_eq_true, if_true, ite_true] at hs
    by_cases hemp : (filterIPByLen l (ipLenFor network)).length = 0
    · simp [hemp] at hs
    · simp only [hemp, if_false, ite_false] at hs
      cases hpick : pick dc counter randVal (filterIPByLen l (ipLenFor network)) with
      | mk c' os =>
        cases os with
        | some t =>
          rw [hpick] at hs
          simp only [] at hs
          rw [← StrResult.ok.inj hs]
          exact pick_mem hpick
        | none =>
          rw [hpick] at hs
          exact absurd hs (by simp)

/-- C6 witness: with transport tcp4 and a resolver answering one IPv4 and one
IPv6 address, the filtered list keeps only the IPv4 one and getIP picks it. -/
theorem C6_witness :
    ipLenFor "tcp4" ≠ 0 ∧
    parseIPLit (stripBrackets "example.test") = false ∧
    (LookupWithCache dcW resolverMixed storeEmpty 0 "example.test").result
      = .ok [[9, 9, 9, 9], [32, 1, 13, 184, 0, 0, 0, 0, 0, 0, 0, 0, 0, 0, 0, 1]] ∧
    (getIP dcW parseIPLit resolverMixed storeEmpty 0 0 0 "tcp4" "example.test").result
      = .ok "9.9.9.9" ∧
    ∃ ip ∈ filterIPByLen [[9, 9, 9, 9], [32, 1, 13, 184, 0, 0, 0, 0, 0, 0, 0, 0, 0, 0, 0, 1]]
        (ipLenFor "tcp4"),
      "9.9.9.9" = ipString ip := by
  refine ⟨by decide, by decide, by decide, by decide, ?_⟩
  exact ((C6_family_filter dcW parseIPLit resolverMixed storeEmpty 0 0 0 "tcp4"
      "example.test" [] (by decide)).2 (by decide)
      [[9, 9, 9, 9], [32, 1, 13, 184, 0, 0, 0, 0, 0, 0, 0, 0, 0, 0, 0, 1]] (by decide)).2
    "9.9.9.9" (by decide)

/-- Helper: a successful getIP on the resolution path picks the text of a
member of the (possibly family-filtered) resolved list. -/
theorem getIP_ok_mem {dc : DNSCache} {parseIPOk : String → Bool} {resolver : Resolver}
    {store : Store} {counter : Int} {randVal : Nat} {now : Nat}
    {network host s : String}
    (hp : parseIPOk (stripBrackets host) = false) {l : List IPAddr}
    (hl : (LookupWithCache dc resolver store now (stripBrackets host)).result = .ok l)
    (hs : (getIP dc parseIPOk resolver store counter randVal now network host).result
      = .ok s) :
    ∃ ip ∈ (if ipLenFor network ≠ 0 then filterIPByLen l (ipLenFor network) else l),
      s = ipString ip := by
  by_cases hn : ipLenFor network ≠ 0
  · rw [if_pos hn]
    simp [getIP, hp, hl, hn] at hs
    by_cases hemp : filterIPByLen l (ipLenFor network) = []
    · simp [hemp] at hs
    · simp only [hemp, if_false, ite_false] at hs
      cases hpick : pick dc counter randVal (filterIPByLen l (ipLenFor network)) with
      | mk c' os =>
        cases os with
        | some t =>
          rw [hpick] at hs
          simp at hs
          rw [← hs]
          exact pick_mem hpick
        | none =>
          rw [hpick] at hs
          simp at hs
  · rw [if_neg hn]
    push_neg at hn
    simp [getIP, hp, hl, hn] at hs
    by_cases hemp : l = []
    · simp [hemp] at hs
    · simp only [hemp, if_false, ite_false] at hs
      cases hpick : pick dc counter randVal l with
      | mk c' os =>
        cases os with
        | some t =>
          rw [hpick] at hs
          simp at hs
          rw [← hs]
          exact pick_mem hpick
        | none =>
          rw [hpick] at hs
          simp at hs

/-- C5 counterexample: the target "::1:443" has the literal IPv6 host portion
"::1" (split at the last colon); no resolution occurs, yet the connector
receives "[::1]:443", not the original address, so the claim's
dialed-as-is part fails. -/
theorem C5_counterexample :
    (GetDialContext dcW parseIPLit resolverBoom false storeEmpty 0 0 0 "tcp" "::1:443").result
      = .dialed "[::1]:443" ∧
    (GetDialContext dcW parseIPLit resolverBoom false storeEmpty 0 0 0 "tcp" "::1:443").result
      ≠ .dialed "::1:443" ∧
    (GetDialContext dcW parseIPLit resolverBoom false storeEmpty 0 0 0 "tcp"
      "::1:443").resolverCalled = false :=
  ⟨by decide, by decide, by decide⟩

/-- C5 amended: splitting the target at its last colon, a bracket-stripped
literal host is handed to the connector without any resolution, re-bracketed
exactly when it contains a colon (hence equal to the original target for an
unbracketed IPv4 or a bracketed IPv6 literal, while an unbracketed IPv6
literal gains brackets); a non-literal host is resolved through the cache,
one address of the (family-filtered) resolved list is selected, and the
connector receives the selected address joined with the original port
suffix. -/
theorem C5_dial_adapter (dc : DNSCache) (parseIPOk : String → Bool)
    (resolver : Resolver) (store : Store) (counter : Int) (randVal : Nat)
    (now : Nat) (network addr : String) (sepIndex : Nat)
    (hsep : lastColonIdx addr = some sepIndex) :
    (parseIPOk (stripBrackets (addr.take sepIndex)) = true →
      (GetDialContext dc parseIPOk resolver false store counter randVal now
          network addr).result
        = .dialed (bracketIPv6 (stripBrackets (addr.take sepIndex)) ++ addr.drop sepIndex) ∧
      (GetDialContext dc parseIPOk resolver false store counter randVal now
          network addr).resolverCalled = false ∧
      (GetDialContext dc parseIPOk resolver false store counter randVal now
          network addr).refreshTriggered = false) ∧
    (parseIPOk (stripBrackets (addr.take sepIndex)) = false →
      ∀ s, (getIP dc parseIPOk resolver store counter randVal now network
              (addr.take sepIndex)).result = .ok s →
        (GetDialContext dc parseIPOk resolver false store counter randVal now
            network addr).result
          = .dialed (bracketIPv6 s ++ addr.drop sepIndex) ∧
        ∀ l, (LookupWithCache dc resolver store now
                (stripBrackets (addr.take sepIndex))).result = .ok l →
          ∃ ip ∈ (if ipLenFor network ≠ 0 then filterIPByLen l (ipLenFor network) else l),
            s = ipString ip) := by
  constructor
  · intro hp
    simp [GetDialContext, hsep, getIP, hp]
  · intro hp s hs
    constructor
    · simp only [GetDialContext, hsep]
      rw [hs]
    · intro l hl
      exact getIP_ok_mem hp hl hs

/-- C5 witness: dialing "example.test:443" with a fake resolver answering
9.9.9.9 hands "9.9.9.9:443" to the connector. -/
theorem C5_witness :
    lastColonIdx "example.test:443" = some 12 ∧
    parseIPLit (stripBrackets (String.take "example.test:443" 12)) = false ∧
    (getIP dcW parseIPLit resolverNine storeEmpty 0 0 0 "tcp"
        (String.take "example.test:443" 12)).result = .ok "9.9.9.9" ∧
    (GetDialContext dcW parseIPLit resolverNine false storeEmpty 0 0 0 "tcp"
        "example.test:443").result = .dialed "9.9.9.9:443" := by
  refine ⟨by decide, by decide, by decide, ?_⟩
  have h := ((C5_dial_adapter dcW parseIPLit resolverNine storeEmpty 0 0 0 "tcp"
      "example.test:443" 12 (by decide)).2 (by decide) "9.9.9.9" (by decide)).1
  exact h.trans (by decide)

/-- C7: with PolicyRoundRobin, pick returns the element at the incremented
shared counter value reduced modulo the list length while that value is
non-negative (counter 5 gives value 6, index 6 mod 2 = 0, element 0); but
once the int32 counter has wrapped to a negative value, Go's truncated %
yields a negative index and ipAddrs[index] panics (counter -2 gives value
-1, index -1, out of range), so the index does not lie within bounds for
every possible counter value. -/
theorem C7_roundrobin_wrap :
    (pick ⟨60, 0, PolicyRoundRobin, 0, 0⟩ 5 0 [[1, 1, 1, 1], [2, 2, 2, 2]]).2
      = some "1.1.1.1" ∧
    (pick ⟨60, 0, PolicyRoundRobin, 0, 0⟩ (-2) 0 [[1, 1, 1, 1], [2, 2, 2, 2]]).2
      = none :=
  ⟨by decide, by decide⟩

/-- C8 counterexample: with a resolver failing with the plain error "boom",
Lookup returns exactly that error, which is not a ResolutionFailed value
wrapping the resolver's error with host context, contrary to the claim. -/
theorem C8_counterexample :
    Lookup dcW resolverBoom "example.com" = .error (.errMsg "boom") ∧
    (GoErr.errMsg "boom").isResolutionFailed = false :=
  ⟨by decide, by decide⟩

/-- C8 amended: Lookup fails with ErrNotFound when the resolver succeeds
with zero addresses; when the resolver itself errors, Lookup returns the
resolver's error unchanged (no ResolutionFailed wrapping is added by the
package); on success it returns the resolver's address list unchanged. -/
theorem C8_lookup_errors (dc : DNSCache) (resolver : Resolver) (host : String) :
    (resolver (networkStr dc) host = .ok [] →
       Lookup dc resolver host = .error .notFound) ∧
    (∀ l, resolver (networkStr dc) host = .ok l → l ≠ [] →
       Lookup dc resolver host = .ok l) ∧
    (∀ e, resolver (networkStr dc) host = .error e →
       Lookup dc resolver host = .error e) := by
  refine ⟨?_, ?_, ?_⟩
  · intro he
    simp [Lookup, lookup, he]
  · intro l hl hne
    have hlen : l.length ≠ 0 := by simpa [List.length_eq_zero] using hne
    simp [Lookup, lookup, hl, hlen]
  · intro e he
    simp [Lookup, lookup, he]

/-- C8 witness: a concrete resolver failure propagated unchanged. -/
theorem C8_witness :
    resolverBoom (networkStr dcW) "example.com" = .error (.errMsg "boom") ∧
    Lookup dcW resolverBoom "example.com" = .error (.errMsg "boom") :=
  ⟨by decide, (C8_lookup_errors dcW resolverBoom "example.com").2.2
    (.errMsg "boom") (by decide)⟩

/-- Helper: a colon-free character list makes the last-colon search fail,
Go's strings.LastIndex returning -1. -/
theorem lastColonIdxAux_none {cs : List Char} (h : ':' ∉ cs) :
    lastColonIdxAux cs = none := by
  induction cs with
  | nil => rfl
  | cons c rest ih =>
    simp only [List.mem_cons, not_or] at h
    unfold lastColonIdxAux
    rw [ih h.2]
    simp only []
    rw [if_neg (fun k => h.1 k.symm)]

/-- C10: the connect closure is only well-defined for targets containing a
colon: on a colon-free addr, strings.LastIndex yields -1 and the slice
addr[:sepIndex] is out of bounds, so the call panics rather than returning a
graceful error. -/
theorem C10_colon_required (dc : DNSCache) (parseIPOk : String → Bool)
    (resolver : Resolver) (retry : Bool) (store : Store) (counter : Int)
    (randVal : Nat) (now : Nat) (network addr : String)
    (h : ':' ∉ addr.data) :
    (GetDialContext dc parseIPOk resolver retry store counter randVal now
        network addr).result = .panicked := by
  have hn : lastColonIdx addr = none := lastColonIdxAux_none h
  simp [GetDialContext, hn]

/-- C10 witness: dialing the colon-free target "localhost" panics. -/
theorem C10_witness :
    ':' ∉ ("localhost" : String).data ∧
    (GetDialContext dcW parseIPLit resolverNine false storeEmpty 0 0 0 "tcp"
        "localhost").result = .panicked :=
  ⟨by decide, C10_colon_required dcW parseIPLit resolverNine false storeEmpty 0 0 0
    "tcp" "localhost" (by decide)⟩
